import Mathlib

/-!
Verification development for the go-pave parsing core.

This file gives a shallow embedding of the go-pave repository's data model
and algorithms (tag grammar scanner, binding compiler, parse-chain executor,
per-source binding cache), translated from the Go source, and proves the
frozen claims about them.

Modelling conventions:
* Go `string` is Lean `String` (scanning is done on `List Char`; the tags in
  question are ASCII so bytes and chars coincide).
* A Go `any` value that is compared against `nil` is `Option String`
  (`none` is Go `nil`; `fmt.Sprintf "%v"` of a string value is the string
  itself, so the stringification step is the identity in the model).
* Go `error` values are an inductive `GoErr` with one constructor per
  distinct error-construction site of the embedded code.
* A Go runtime panic (assignment to a nil map, reflect index panic) is a
  dedicated outcome (`GoResult.panicked`, `GoErr.runtimeFault`), kept apart
  from ordinary returned errors.
* `setFieldValue` (string-to-typed-field coercion, an external collaborator
  per the spec) is a parameter `setF : String → Except GoErr String`; an
  `Except.ok s` result means the destination field now holds `s`.
-/

namespace Pave

/-- Quote character `'` (the default sub-tag scope delimiter, byte 39). -/
def quoteChar : Char := Char.ofNat 39

/-- Backslash character (the escape marker, byte 92). -/
def backslashChar : Char := Char.ofNat 92

/-- Go `error` values produced by the embedded code, one constructor per
`fmt.Errorf` / `errors.New` site. -/
inductive GoErr : Type where
  /-- An error coming from an external collaborator (binding handler or
  `setFieldValue` coercion). -/
  | external (msg : String) : GoErr
  /-- `doStepRegular`: `errs = fmt.Errorf("%w: %w", errs, result.Error)`
  when `errs` was still nil. -/
  | wrapAccumNil (e : GoErr) : GoErr
  /-- `doStepRegular`: `errs = fmt.Errorf("%w: %w", errs, result.Error)`
  when `errs` was already non-nil. -/
  | wrapAccumSome (prev : GoErr) (e : GoErr) : GoErr
  /-- `doStepRegular`: `"required field %s not found in source %s"`. -/
  | requiredNotFound (identifier name : String) : GoErr
  /-- `doStepRegular`: `ErrAllBindingsFailedNoDefault` wrapping a still-nil
  accumulated `errs`. -/
  | allFailedNoDefaultNil : GoErr
  /-- `doStepRegular`: `ErrAllBindingsFailedNoDefault` wrapping non-nil
  accumulated errors. -/
  | allFailedNoDefaultSome (prev : GoErr) : GoErr
  /-- `Execute`: `"failed to parse field %s: %w"`. -/
  | fieldWrap (fieldName : String) (e : GoErr) : GoErr
  /-- `Execute`: `ErrNilParseChain` with the struct type name. -/
  | nilParseChain (typeName : String) : GoErr
  /-- `doStepRecursive`: `"no sub-chain available for struct field %s"`. -/
  | noSubChain (fieldName : String) : GoErr
  /-- `doStepRecursive`: `"cannot get address of struct field %s"`. -/
  | cannotAddr (fieldName : String) : GoErr
  /-- `ErrUnallowedBindingModifier`. -/
  | unallowedBindingModifier (m : String) : GoErr
  /-- `ErrEmptyBindingIdentifier`. -/
  | emptyBindingIdentifier (key value : String) : GoErr
  /-- `ErrInvalidBindingInfoFormat`. -/
  | invalidBindingInfoFormat (s : String) : GoErr
  /-- `decodeDefaultTagV2`: `"default " + ErrEmptyTagValue`. -/
  | emptyTagValue : GoErr
  /-- `decodeBindingTagsV2`: `"error getting binding tag %s for field %s"`. -/
  | bindingTagWrap (tagName fieldName : String) (e : GoErr) : GoErr
  /-- `makeBindings`: `"error creating field binding from tag %s"`. -/
  | makeBindingsWrap (tagName : String) (e : GoErr) : GoErr
  /-- `NewParseStep`: `ErrFailedToParseTag` wrapping. -/
  | failedToParseTag (fieldName : String) (e : GoErr) : GoErr
  /-- `NewParseStep`: `ErrFailedToBuildSubChain` wrapping. -/
  | failedToBuildSubChain (fieldName : String) (e : GoErr) : GoErr
  /-- `ErrNoStepBindings` sentinel. -/
  | noStepBindings : GoErr
  /-- A Go runtime panic surfaced while executing (modelled as an error
  value because the executor has no other out-of-band channel). -/
  | runtimeFault (msg : String) : GoErr
deriving DecidableEq, Repr

/-- `fmt.Errorf("%w: %w", errs, e)` with `errs : Option GoErr` possibly
still nil, as done by the accumulator in `doStepRegular`. -/
def GoErr.wrapAccum (prev : Option GoErr) (e : GoErr) : GoErr :=
  match prev with
  | none => GoErr.wrapAccumNil e
  | some p => GoErr.wrapAccumSome p e

/-- `fmt.Errorf("%w: %w %s", errs, ErrAllBindingsFailedNoDefault, field)`
with `errs : Option GoErr` possibly still nil. -/
def GoErr.allFailedNoDefault (prev : Option GoErr) : GoErr :=
  match prev with
  | none => GoErr.allFailedNoDefaultNil
  | some p => GoErr.allFailedNoDefaultSome p

/-- Outcome of a Go function call that may also panic
(`toBinding` writes into a possibly-nil map). -/
inductive GoResult (α : Type) : Type where
  | panicked (msg : String) : GoResult α
  | errored (e : GoErr) : GoResult α
  | ok (a : α) : GoResult α
deriving DecidableEq, Repr

/-- `BindingModifiers` from binding.go. `custom` models the Go
`map[string]bool`: `none` is the nil map of a zero-initialized struct,
`some m` an allocated map. -/
structure BindingModifiers : Type where
  required : Bool
  omitEmpty : Bool
  omitNil : Bool
  omitError : Bool
  custom : Option (List (String × Bool))
deriving DecidableEq, Repr

/-- The zero value `BindingModifiers{}` (all flags false, nil map). -/
def BindingModifiers.zero : BindingModifiers :=
  ⟨false, false, false, false, none⟩

/-- `Binding` from binding.go. -/
structure Binding : Type where
  name : String
  identifier : String
  modifiers : BindingModifiers
deriving DecidableEq, Repr

/-- `BindingResult` from binding.go: `Value any`, `Found bool`,
`Error error`. -/
structure BindingResult : Type where
  value : Option String
  found : Bool
  error : Option GoErr
deriving DecidableEq, Repr

/-- `BindingHandlerFunc` from binding.go, for a fixed source instance:
the extraction function injected into the chain. -/
def Handler : Type := Binding → BindingResult

/-- The coercion `setFieldValue(field, value)` from helpers.go, abstracted:
`Except.ok s` means the write succeeded and the field now holds `s`. -/
def SetField : Type := String → Except GoErr String

/-- Outcome of `doStepRegular` on one destination field:
`written` is `some s` when `setFieldValue` ran successfully and stored `s`
(`none` means the field was left untouched), `err` is the function's return
value, `invoked` lists the bindings passed to the handler, in call order. -/
structure StepOutcome : Type where
  written : Option String
  err : Option GoErr
  invoked : List Binding
deriving DecidableEq, Repr

/-- The binding loop of `ParseChain.doStepRegular` (part_002 lines 107-168),
carrying the loop state: remaining bindings, the three `allOmit*`
accumulators, the accumulated `errs`, and the bindings invoked so far. -/
def doStepRegularAux (handler : Handler) (setF : SetField)
    (defaultValue : String) :
    List Binding → Bool → Bool → Bool → Option GoErr → List Binding →
    StepOutcome
  | [], allOE, allOErr, allON, errs, inv =>
    -- after the loop: "if all sources have failed ... and default value
    -- given, thats ok"
    if allOE || allOErr || allON then
      if defaultValue ≠ "" then
        match setF defaultValue with
        | Except.ok s => ⟨some s, none, inv⟩
        | Except.error e => ⟨none, some e, inv⟩
      else
        ⟨none, some (GoErr.allFailedNoDefault errs), inv⟩
    else
      ⟨none, errs, inv⟩
  | b :: rest, allOE, allOErr, allON, errs, inv =>
    let m := b.modifiers
    let allOE2 := allOE && m.omitEmpty
    let allOErr2 := allOErr && m.omitError
    let allON2 := allON && m.omitNil
    let r := handler b
    let inv2 := inv ++ [b]
    match r.error with
    | some e =>
      if m.omitError then
        doStepRegularAux handler setF defaultValue rest
          allOE2 allOErr2 allON2 errs inv2
      else
        let errs2 := some (GoErr.wrapAccum errs e)
        if m.required then ⟨none, errs2, inv2⟩
        else
          doStepRegularAux handler setF defaultValue rest
            allOE2 allOErr2 allON2 errs2 inv2
    | none =>
      if r.found ∧ r.value ≠ none then
        match r.value with
        | some v =>
          match setF v with
          | Except.ok s => ⟨some s, none, inv2⟩
          | Except.error e => ⟨none, some e, inv2⟩
        | none => ⟨none, some (GoErr.runtimeFault "unreachable"), inv2⟩
      else if r.found ∧ r.value = none ∧ m.omitNil then
        doStepRegularAux handler setF defaultValue rest
          allOE2 allOErr2 allON2 errs inv2
      else if m.required then
        ⟨none, some (GoErr.requiredNotFound b.identifier b.name), inv2⟩
      else
        doStepRegularAux handler setF defaultValue rest
          allOE2 allOErr2 allON2 errs inv2

/-- `ParseChain.doStepRegular` (part_002 lines 107-168; identical logic in
parse_chain.go lines 92-154): try each binding of the step in order. -/
def doStepRegular (handler : Handler) (setF : SetField)
    (bindings : List Binding) (defaultValue : String) : StepOutcome :=
  doStepRegularAux handler setF defaultValue bindings true true true none []

/-! ## Grammar scanner (`SubTagByDelimeter`, tag.go lines 374-451) -/

/-- Result of `SubTagByDelimeter`. The three error constructors correspond
to the three distinct error sites of the Go function:
`"subtag %q not found"`, `"no value found after subtag %q"` and
`"unterminated subtag value for %q"`. -/
inductive SubTagOutcome : Type where
  | ok (value : String) : SubTagOutcome
  | notFound : SubTagOutcome
  | noValue : SubTagOutcome
  | unterminated : SubTagOutcome
deriving DecidableEq, Repr

/-- First index at which `pat` occurs in `l` (Go `strings.Index`). -/
def substrIndex (l pat : List Char) : Option Nat :=
  match l with
  | [] => if pat.isPrefixOf ([] : List Char) then some 0 else none
  | _ :: rest =>
    if pat.isPrefixOf l then some 0
    else (substrIndex rest pat).map (· + 1)

/-- Go's space-or-tab test used by the scanner. -/
def isSpaceTab (c : Char) : Bool := c = ' ' || c = '\t'

/-- The quoted-value scan loop of `SubTagByDelimeter` (tag.go lines
406-448): left-to-right scan after the opening delimiter, maintaining the
`escaped` flag and the `nestingLevel` counter, accumulating the copied
characters. -/
def scanQuoted (delim : Char) (l : List Char) (escaped : Bool) (lvl : Nat)
    (acc : List Char) : SubTagOutcome :=
  match l with
  | [] => SubTagOutcome.unterminated
  | c :: rest =>
    if c = backslashChar ∧ escaped = false then
      scanQuoted delim rest true lvl (acc ++ [c])
    else if escaped = false ∧ c = ':' then
      match rest with
      | d :: rest2 =>
        if d = delim then
          -- nested sub-tag opens: copy ":<delim>", skip the delimiter
          scanQuoted delim rest2 false (lvl + 1) (acc ++ [c, d])
        else
          scanQuoted delim (d :: rest2) false lvl (acc ++ [c])
      | [] =>
        -- Go writes the trailing ':' and the loop then runs off the end
        SubTagOutcome.unterminated
    else if escaped = false ∧ c = delim then
      if lvl = 0 then SubTagOutcome.ok (String.mk acc)
      else scanQuoted delim rest false (lvl - 1) (acc ++ [c])
    else
      scanQuoted delim rest false lvl (acc ++ [c])

/-- `SubTagByDelimeter(tag, key, delim)` (tag.go lines 374-451): find
`key ++ ":"`, skip whitespace, then read either a bare token (up to
space/tab) or a delimiter-quoted scope via `scanQuoted`. -/
def SubTagByDelimeter (tag key : String) (delim : Char) : SubTagOutcome :=
  match substrIndex tag.data (key.data ++ [':']) with
  | none => SubTagOutcome.notFound
  | some idx =>
    let afterKey := tag.data.drop (idx + key.length + 1)
    let afterWs := afterKey.dropWhile isSpaceTab
    match afterWs with
    | [] => SubTagOutcome.noValue
    | c :: rest =>
      if c = delim then scanQuoted delim rest false 0 []
      else SubTagOutcome.ok (String.mk ((c :: rest).takeWhile
        (fun x => isSpaceTab x = false)))

/-- `SubTag(tag, key)` (tag.go lines 363-365): `SubTagByDelimeter` with the
default scope delimiter `'`. -/
def SubTag (tag key : String) : SubTagOutcome :=
  SubTagByDelimeter tag key quoteChar

/-- Spec-side state machine for the scan (§9 of the spec: explicit
Normal / Escaped / nesting-counter automaton): does the left-to-right scan
of a quoted scope reach the end of input while the scope is still open?
Tracks exactly the `escaped`/`nestingLevel` transitions of `scanQuoted`
without accumulating output. -/
def scopeStillOpen (delim : Char) (l : List Char) (escaped : Bool)
    (lvl : Nat) : Bool :=
  match l with
  | [] => true
  | c :: rest =>
    if c = backslashChar ∧ escaped = false then
      scopeStillOpen delim rest true lvl
    else if escaped = false ∧ c = ':' then
      match rest with
      | d :: rest2 =>
        if d = delim then scopeStillOpen delim rest2 false (lvl + 1)
        else scopeStillOpen delim (d :: rest2) false lvl
      | [] => true
    else if escaped = false ∧ c = delim then
      if lvl = 0 then false
      else scopeStillOpen delim rest false (lvl - 1)
    else
      scopeStillOpen delim rest false lvl

/-! ## Tag decoding and binding compilation (part_016, part_000 defines) -/

/-- `BindingTag` from part_016: decoded per-source-name tag. -/
structure BindingTag : Type where
  name : String
  identifier : String
  modifiers : List String
deriving DecidableEq, Repr

/-- `DefaultTag` from part_016. -/
structure DefaultTag : Type where
  value : String
deriving DecidableEq, Repr

/-- `RecursiveTag` from part_016. -/
structure RecursiveTag : Type where
  enabled : Bool
deriving DecidableEq, Repr

/-- `CustomTag` from part_016. -/
structure CustomTag : Type where
  name : String
  value : String
deriving DecidableEq, Repr

/-- `ParseTag` from part_016. -/
structure ParseTag : Type where
  bindingTags : List BindingTag
  defaultTag : DefaultTag
  recursiveTag : RecursiveTag
  customTags : List CustomTag
deriving DecidableEq, Repr

/-- `BindingOpts` from binding.go. -/
structure BindingOpts : Type where
  allowedBindingNames : List String
  customBindingModifiers : List String
deriving DecidableEq, Repr

/-- `ParseTagOpts` from part_016. -/
structure ParseTagOpts : Type where
  bindingOpts : BindingOpts
  allowedTagOptionals : List String
deriving DecidableEq, Repr

-- The static Go type of a destination field, as far as the compiler
-- inspects it: string kind, some other non-struct kind, a struct kind that
-- `isSpecialStructType` treats as a leaf (time.Time, uuid.UUID), or a plain
-- struct with its fields.
mutual
inductive GoType : Type where
  | str : GoType
  | prim (kindName : String) : GoType
  | special (typeName : String) : GoType
  | strukt (typeName : String) (fields : List GoField) : GoType

inductive GoField : Type where
  | mk (name : String) (exported : Bool) (tags : List (String × String))
      (typ : GoType) : GoField
end

/-- Field name accessor. -/
def GoField.name : GoField → String
  | .mk n _ _ _ => n

/-- `field.IsExported()`. -/
def GoField.exported : GoField → Bool
  | .mk _ e _ _ => e

/-- The field's struct-tag key/value pairs. -/
def GoField.tags : GoField → List (String × String)
  | .mk _ _ t _ => t

/-- The field's static type. -/
def GoField.typ : GoField → GoType
  | .mk _ _ _ t => t

/-- `field.Tag.Lookup(key)`: first value for `key`. -/
def tagLookup (tags : List (String × String)) (key : String) :
    Option String :=
  match tags with
  | [] => none
  | (k, v) :: rest => if k = key then some v else tagLookup rest key

/-- `Type.Kind() == reflect.Struct`. -/
def GoType.kindIsStruct : GoType → Bool
  | .special _ => true
  | .strukt _ _ => true
  | _ => false

/-- `Type.Kind() == reflect.String`. -/
def GoType.kindIsString : GoType → Bool
  | .str => true
  | _ => false

/-- `isSpecialStructType` from helpers.go (time.Time, uuid.UUID, ...). -/
def isSpecialStructType : GoType → Bool
  | .special _ => true
  | _ => false

/-- `Type.Name()`. -/
def GoType.name : GoType → String
  | .str => "string"
  | .prim n => n
  | .special n => n
  | .strukt n _ => n

/-- The three built-in omit modifier tokens (part_000 defines:
`omitempty`, `omitnil`, `omiterror`). -/
def builtinOmitModifiers : List String := ["omitempty", "omitnil", "omiterror"]

/-- Whether a modifier token is one of the three built-in omit tokens. -/
def isBuiltinOmit (m : String) : Bool :=
  m = "omitempty" || m = "omiterror" || m = "omitnil"

/-- The modifier-validation loop of `decodeBindingTagV2` (part_016 lines
189-199): built-in omit tokens pass, anything else must be in the
custom-modifier allow-list. -/
def checkModifiers (customBindingModifiers : List String) :
    List String → Option GoErr
  | [] => none
  | m :: rest =>
    if m = "omitempty" ∨ m = "omiterror" ∨ m = "omitnil" then
      checkModifiers customBindingModifiers rest
    else if customBindingModifiers.contains m then
      checkModifiers customBindingModifiers rest
    else
      some (GoErr.unallowedBindingModifier m)

/-- `decodeBindingTagV2(key, value, opts)` (part_016 lines 166-207):
split the tag value on commas into identifier and modifier tokens and
validate the modifiers. The `CommaDelimeter` constant is declared outside
the provided sources; per the repository's grammar comments
("Delimited with ',' ") it is the comma. -/
def decodeBindingTagV2 (key value : String) (opts : BindingOpts) :
    Except GoErr BindingTag :=
  match value.splitOn "," with
  | [] => Except.error (GoErr.invalidBindingInfoFormat value)
  | identifier :: mods =>
    if identifier.length = 0 then
      Except.error (GoErr.emptyBindingIdentifier key value)
    else
      match checkModifiers opts.customBindingModifiers mods with
      | some e => Except.error e
      | none => Except.ok ⟨key, identifier, mods⟩

/-- The lookup loop of `decodeBindingTagsV2` (part_016 lines 148-164):
for each allow-listed binding name, in allow-list order, decode the
field's tag under that name if present. -/
def decodeBindingTagsLoop (field : GoField) (opts : ParseTagOpts) :
    List String → Except GoErr (List BindingTag)
  | [] => Except.ok []
  | n :: rest =>
    match tagLookup field.tags n with
    | some v =>
      match decodeBindingTagV2 n v opts.bindingOpts with
      | Except.error e =>
        Except.error (GoErr.bindingTagWrap n field.name e)
      | Except.ok bt =>
        match decodeBindingTagsLoop field opts rest with
        | Except.error e => Except.error e
        | Except.ok bts => Except.ok (bt :: bts)
    | none => decodeBindingTagsLoop field opts rest

/-- `decodeBindingTagsV2(field, opts)` (part_016 lines 148-164). -/
def decodeBindingTagsV2 (field : GoField) (opts : ParseTagOpts) :
    Except GoErr (List BindingTag) :=
  decodeBindingTagsLoop field opts opts.bindingOpts.allowedBindingNames

/-- `decodeCustomTagsV2(field, opts)` (part_016 lines 209-218): collect the
allow-listed optional tags present on the field (never fails). -/
def decodeCustomTagsV2 (field : GoField) :
    List String → List CustomTag
  | [] => []
  | n :: rest =>
    match tagLookup field.tags n with
    | some v => ⟨n, v⟩ :: decodeCustomTagsV2 field rest
    | none => decodeCustomTagsV2 field rest

/-- `decodeDefaultTagV2(field)` (part_016 lines 220-233): an absent
`default` tag is no default at all (empty value, no error); a present but
empty one is an error unless the field is a string. -/
def decodeDefaultTagV2 (field : GoField) : Except GoErr DefaultTag :=
  match tagLookup field.tags "default" with
  | some v =>
    let value := v.trim
    if value = "" ∧ field.typ.kindIsString = false then
      Except.error GoErr.emptyTagValue
    else
      Except.ok ⟨value⟩
  | none => Except.ok ⟨""⟩

/-- `decodeRecursiveTagV2(field)` (part_016 lines 235-249): recursion is on
by default for struct-kind fields, off for everything else; an explicit
`recursive` tag must read `true` (after trimming) to enable it. -/
def decodeRecursiveTagV2 (field : GoField) : RecursiveTag :=
  if field.typ.kindIsStruct then
    match tagLookup field.tags "recursive" with
    | some v => ⟨v.trim = "true"⟩
    | none => ⟨true⟩
  else
    ⟨false⟩

/-- `DecodeParseTagV2(field, opts)` (part_016 lines 115-146). -/
def DecodeParseTagV2 (field : GoField) (opts : ParseTagOpts) :
    Except GoErr ParseTag :=
  match decodeBindingTagsV2 field opts with
  | Except.error e => Except.error e
  | Except.ok bindingTags =>
    let customTags := decodeCustomTagsV2 field opts.allowedTagOptionals
    match decodeDefaultTagV2 field with
    | Except.error e => Except.error e
    | Except.ok defTag =>
      Except.ok ⟨bindingTags, defTag, decodeRecursiveTagV2 field, customTags⟩

/-- The modifier loop of `BindingTag.toBinding` (part_016 lines 402-432):
fold over the modifier tokens, setting omit flags; an allow-listed custom
modifier is written into `modifiers.Custom`, which is still the nil map of
the zero-initialized `BindingModifiers{}` — in Go that assignment panics. -/
def toBindingLoop (customModifiers : List String) :
    List String → BindingModifiers → Bool →
    GoResult (BindingModifiers × Bool)
  | [], mods, omitSeen => GoResult.ok (mods, omitSeen)
  | m :: rest, mods, omitSeen =>
    if m = "omitempty" then
      toBindingLoop customModifiers rest { mods with omitEmpty := true } true
    else if m = "omiterror" then
      toBindingLoop customModifiers rest { mods with omitError := true } true
    else if m = "omitnil" then
      toBindingLoop customModifiers rest { mods with omitNil := true } true
    else if customModifiers.contains m = false then
      GoResult.errored (GoErr.unallowedBindingModifier m)
    else
      match mods.custom with
      | none => GoResult.panicked "assignment to entry in nil map"
      | some mp =>
        toBindingLoop customModifiers rest
          { mods with custom := some ((m, true) :: mp) } omitSeen

/-- `BindingTag.toBinding(customModifiers)` (part_016 lines 402-432):
process the modifier tokens, then set `Required = !omit`. -/
def BindingTag.toBinding (t : BindingTag) (customModifiers : List String) :
    GoResult Binding :=
  match toBindingLoop customModifiers t.modifiers BindingModifiers.zero
      false with
  | GoResult.panicked msg => GoResult.panicked msg
  | GoResult.errored e => GoResult.errored e
  | GoResult.ok (mods, omitSeen) =>
    GoResult.ok ⟨t.name, t.identifier, { mods with required := !omitSeen }⟩

/-- The loop of `makeBindings` (part_016 lines 387-400). -/
def makeBindingsLoop (customModifiers : List String) :
    List BindingTag → GoResult (List Binding)
  | [] => GoResult.ok []
  | bt :: rest =>
    match bt.toBinding customModifiers with
    | GoResult.panicked msg => GoResult.panicked msg
    | GoResult.errored e =>
      GoResult.errored (GoErr.makeBindingsWrap bt.name e)
    | GoResult.ok b =>
      match makeBindingsLoop customModifiers rest with
      | GoResult.panicked msg => GoResult.panicked msg
      | GoResult.errored e => GoResult.errored e
      | GoResult.ok bs => GoResult.ok (b :: bs)

/-- `makeBindings(parseTag, opts)` (part_016 lines 387-400). -/
def makeBindings (ptag : ParseTag) (opts : ParseTagOpts) :
    GoResult (List Binding) :=
  makeBindingsLoop opts.bindingOpts.customBindingModifiers ptag.bindingTags

/-! ## Parse chains (part_002): structure, compilation, execution -/

-- `ParseChain` / `ParseStep` from part_002 (the linked list `Head`/`Next`
-- is modelled as the list of steps in order; the chain's `Handler` is
-- passed to the executor separately).
mutual
inductive PChain : Type where
  | mk (typeName : String) (steps : List PStep) : PChain

inductive PStep : Type where
  | mk (fieldIndex : Nat) (fieldName : String) (bindings : List Binding)
      (defaultValue : String) (isStructF : Bool) (shouldRecurse : Bool)
      (subChain : Option PChain) : PStep
end

/-- `ParseChain.StructType.Name()`. -/
def PChain.typeName : PChain → String
  | .mk n _ => n

/-- The chain's steps, in `Head`/`Next` order. -/
def PChain.steps : PChain → List PStep
  | .mk _ s => s

/-- `ParseStep.FieldIndex`. -/
def PStep.fieldIndex : PStep → Nat
  | .mk i _ _ _ _ _ _ => i

/-- `ParseStep.FieldName`. -/
def PStep.fieldName : PStep → String
  | .mk _ n _ _ _ _ _ => n

/-- `ParseStep.Bindings`. -/
def PStep.bindings : PStep → List Binding
  | .mk _ _ b _ _ _ _ => b

/-- `ParseStep.DefaultValue`. -/
def PStep.defaultValue : PStep → String
  | .mk _ _ _ d _ _ _ => d

/-- `ParseStep.IsStruct`. -/
def PStep.isStructF : PStep → Bool
  | .mk _ _ _ _ s _ _ => s

/-- `ParseStep.ShouldRecurse`. -/
def PStep.shouldRecurse : PStep → Bool
  | .mk _ _ _ _ _ r _ => r

/-- `ParseStep.SubChain`. -/
def PStep.subChain : PStep → Option PChain
  | .mk _ _ _ _ _ _ c => c

-- `PCManager.NewParseChain` / `NewParseStep` (part_002 lines 269-369),
-- without the (claim-irrelevant) chain cache write at the end.
mutual

/-- `PCManager.NewParseChain(typ)` (part_002 lines 269-314): walk the
struct's fields in declaration order, skipping unexported fields and fields
whose step creation reports `ErrNoStepBindings`. Called on a non-struct
type, `typ.NumField()` panics in Go. -/
def newParseChain (opts : ParseTagOpts) : GoType → GoResult PChain
  | GoType.strukt typeName fields =>
    match newChainSteps opts fields 0 with
    | GoResult.panicked msg => GoResult.panicked msg
    | GoResult.errored e => GoResult.errored e
    | GoResult.ok steps => GoResult.ok (PChain.mk typeName steps)
  | _ => GoResult.panicked "reflect: NumField of non-struct type"

/-- The field loop of `NewParseChain`, carrying the running field index
(which counts every field, including skipped ones). -/
def newChainSteps (opts : ParseTagOpts) :
    List GoField → Nat → GoResult (List PStep)
  | [], _ => GoResult.ok []
  | f :: rest, i =>
    if f.exported = false then newChainSteps opts rest (i + 1)
    else
      match newParseStep opts f i with
      | GoResult.errored GoErr.noStepBindings =>
        newChainSteps opts rest (i + 1)
      | GoResult.errored e => GoResult.errored e
      | GoResult.panicked msg => GoResult.panicked msg
      | GoResult.ok st =>
        match newChainSteps opts rest (i + 1) with
        | GoResult.panicked msg => GoResult.panicked msg
        | GoResult.errored e => GoResult.errored e
        | GoResult.ok steps => GoResult.ok (st :: steps)

/-- `PCManager.NewParseStep(field, index)` (part_002 lines 318-369). -/
def newParseStep (opts : ParseTagOpts) (f : GoField) (i : Nat) :
    GoResult PStep :=
  match f with
  | GoField.mk fname fexp ftags ftyp =>
    let fld := GoField.mk fname fexp ftags ftyp
    let isStructF := ftyp.kindIsStruct && !(isSpecialStructType ftyp)
    match DecodeParseTagV2 fld opts with
    | Except.error e =>
      GoResult.errored (GoErr.failedToParseTag fname e)
    | Except.ok parseTag =>
      if parseTag.recursiveTag.enabled then
        if isStructF then
          match newParseChain opts ftyp with
          | GoResult.panicked msg => GoResult.panicked msg
          | GoResult.errored e =>
            GoResult.errored (GoErr.failedToBuildSubChain fname e)
          | GoResult.ok subChain =>
            GoResult.ok (PStep.mk i fname [] "" isStructF true
              (some subChain))
        else
          GoResult.ok (PStep.mk i fname [] "" isStructF true none)
      else
        match makeBindings parseTag opts with
        | GoResult.panicked msg => GoResult.panicked msg
        | GoResult.errored e => GoResult.errored e
        | GoResult.ok bindings =>
          if bindings.isEmpty then GoResult.errored GoErr.noStepBindings
          else
            GoResult.ok (PStep.mk i fname bindings parseTag.defaultTag.value
              isStructF false none)

end

/-! ## Chain execution (part_002 lines 51-205) -/

-- A destination value reachable from the executor via reflection: a leaf
-- scalar (whose stored coerced representation is an `Option String`,
-- `none` being the zero value), a struct with its fields, or a pointer to
-- a struct (`ptrNil z` is a nil pointer whose pointee type has zero value
-- `z`, matching what `reflect.New` allocates). Each field carries its
-- `CanSet` flag.
inductive DVal : Type where
  | leaf (v : Option String) : DVal
  | strukt (fields : List (Bool × DVal)) : DVal
  | ptrNil (zero : List (Bool × DVal)) : DVal
  | ptrSome (fields : List (Bool × DVal)) : DVal

/-- The destination struct a chain executes against: its fields in
declaration order, each with its `CanSet` flag. -/
def Dest : Type := List (Bool × DVal)

/-- Result of executing (part of) a chain: the destination after the run,
the returned error, and the bindings handed to the extraction function, in
call order. -/
structure ExecOut : Type where
  dest : Dest
  err : Option GoErr
  trace : List Binding

mutual

/-- `ParseChain.Execute(source, dest)` (part_002 lines 51-78): empty chain
is the `ErrNilParseChain` error; otherwise run the steps in order,
wrapping a step failure with `"failed to parse field %s"`. -/
def executeChain (handler : Handler) (setF : SetField) :
    PChain → Dest → ExecOut
  | PChain.mk typeName steps, dest =>
    match steps with
    | [] => ⟨dest, some (GoErr.nilParseChain typeName), []⟩
    | st :: rest => executeSteps handler setF (st :: rest) dest

/-- The `current := Head; for current != nil` traversal of `Execute`. -/
def executeSteps (handler : Handler) (setF : SetField) :
    List PStep → Dest → ExecOut
  | [], dest => ⟨dest, none, []⟩
  | st :: rest, dest =>
    let r := doStepE handler setF st dest
    match r.err with
    | some e => ⟨r.dest, some (GoErr.fieldWrap st.fieldName e), r.trace⟩
    | none =>
      let r2 := executeSteps handler setF rest r.dest
      ⟨r2.dest, r2.err, r.trace ++ r2.trace⟩

/-- `ParseChain.doStep` together with `doStepRecursive` (part_002 lines
81-102 and 171-205): skip unsettable fields; recurse through sub-chains
for struct fields marked for recursion (allocating nil pointer fields
first); otherwise run the binding loop and store a successful write into
the field. An out-of-range field index is a reflect panic in Go, modelled
as `GoErr.runtimeFault`. -/
def doStepE (handler : Handler) (setF : SetField) (st : PStep)
    (dest : Dest) : ExecOut :=
  match st with
  | PStep.mk idx fname bindings dflt isStructF shouldRec subChain =>
    match dest.get? idx with
    | none => ⟨dest, some (GoErr.runtimeFault "reflect: Field index out of range"), []⟩
    | some (settable, dval) =>
      if settable = false then ⟨dest, none, []⟩
      else if isStructF && shouldRec then
        match subChain with
        | none => ⟨dest, some (GoErr.noSubChain fname), []⟩
        | some sc =>
          match dval with
          | DVal.ptrNil zero =>
            let r := executeChain handler setF sc zero
            ⟨dest.set idx (settable, DVal.ptrSome r.dest), r.err, r.trace⟩
          | DVal.ptrSome fs =>
            let r := executeChain handler setF sc fs
            ⟨dest.set idx (settable, DVal.ptrSome r.dest), r.err, r.trace⟩
          | DVal.strukt fs =>
            let r := executeChain handler setF sc fs
            ⟨dest.set idx (settable, DVal.strukt r.dest), r.err, r.trace⟩
          | DVal.leaf _ => ⟨dest, some (GoErr.cannotAddr fname), []⟩
      else
        let so := doStepRegular handler setF bindings dflt
        match so.written with
        | some s =>
          ⟨dest.set idx (settable, DVal.leaf (some s)), so.err, so.invoked⟩
        | none => ⟨dest, so.err, so.invoked⟩

end

/-! ## Source value cache (binding_cache.go) -/

-- `BindingCache`: source instances are identified by their memory
-- address (`sync.Map` keyed by the source pointer); a cache entry handle
-- (`*CacheEntry`) is identified by an allocation id. The model keeps the
-- association list address->entry-id plus a fresh-allocation counter, and
-- describes the sequential behavior of the cache operations.
structure BindingCacheM : Type where
  entries : List (Nat × Nat)
  nextId : Nat
deriving DecidableEq, Repr

/-- `NewBindingCache()`: empty map. -/
def newBindingCache : BindingCacheM := ⟨[], 0⟩

/-- `sync.Map.Load`. -/
def cacheLookup (entries : List (Nat × Nat)) (key : Nat) : Option Nat :=
  match entries with
  | [] => none
  | (k, v) :: rest => if k = key then some v else cacheLookup rest key

/-- `BindingCache.GetOrCreate(source, factory)` (binding_cache.go lines
35-56): return the existing entry for the source's identity, or allocate
and store a fresh one (`Load` then `LoadOrStore`). Returns the entry
handle and the cache afterwards. -/
def BindingCacheM.getOrCreate (c : BindingCacheM) (key : Nat) :
    Nat × BindingCacheM :=
  match cacheLookup c.entries key with
  | some id => (id, c)
  | none => (c.nextId, ⟨(key, c.nextId) :: c.entries, c.nextId + 1⟩)

/-- `BindingCache.Get(source)` (binding_cache.go lines 59-64). -/
def BindingCacheM.get (c : BindingCacheM) (key : Nat) : Option Nat :=
  cacheLookup c.entries key

/-- `BindingCache.Delete(source)` (binding_cache.go lines 67-69). -/
def BindingCacheM.delete (c : BindingCacheM) (key : Nat) : BindingCacheM :=
  ⟨c.entries.filter (fun kv => kv.fst ≠ key), c.nextId⟩

/-- Well-formedness maintained by the cache operations: every stored entry
id is below the allocation counter, and both keys and entry ids are
duplicate-free. -/
def BindingCacheM.WF (c : BindingCacheM) : Prop :=
  (∀ kv ∈ c.entries, kv.snd < c.nextId) ∧
    (c.entries.map Prod.fst).Nodup ∧ (c.entries.map Prod.snd).Nodup

/-! ## Spec-side comparison definitions and concrete fixtures -/

/-- Spec-side rendering of "the left-to-right scan reaches the end of
input inside a still-open quoted scope" for `SubTagByDelimeter`: the key
is present, its value is delimiter-quoted, and the
`scopeStillOpen` automaton (Normal / Escaped / nesting counter) runs to
the end of the input without closing the scope. -/
def scanEndsInsideOpenScope (tag key : String) (delim : Char) : Bool :=
  match substrIndex tag.data (key.data ++ [':']) with
  | none => false
  | some idx =>
    match (tag.data.drop (idx + key.length + 1)).dropWhile isSpaceTab with
    | [] => false
    | c :: rest => c = delim && scopeStillOpen delim rest false 0

/-- Whether an `Except` computation succeeded. -/
def exceptIsOk {α : Type} (r : Except GoErr α) : Bool :=
  match r with
  | Except.ok _ => true
  | Except.error _ => false

/-- The condition under which `NewParseChain` skips a field entirely:
it is unexported, or it is a non-struct-kind field carrying none of the
allow-listed binding tags (so `ErrNoStepBindings`) whose default tag
decodes without error. -/
def fieldIsSkipped (opts : ParseTagOpts) (f : GoField) : Bool :=
  !f.exported ||
    (!f.typ.kindIsStruct &&
      opts.bindingOpts.allowedBindingNames.all
        (fun n => (tagLookup f.tags n).isNone) &&
      exceptIsOk (decodeDefaultTagV2 f))

/-- Modifiers of a binding compiled from a tag with no modifier tokens:
`Required` (no omit flag seen). -/
def modsRequiredOnly : BindingModifiers := ⟨true, false, false, false, none⟩

/-- Modifiers of a binding compiled from `omitempty` alone. -/
def modsOmitEmptyOnly : BindingModifiers := ⟨false, true, false, false, none⟩

/-- Modifiers of a binding compiled from `omitnil` alone. -/
def modsOmitNilOnly : BindingModifiers := ⟨false, false, true, false, none⟩

/-- Fixture: binding `A(omitempty)`. -/
def wbA : Binding := ⟨"srcA", "a", modsOmitEmptyOnly⟩

/-- Fixture: binding `B(omitempty)`. -/
def wbB : Binding := ⟨"srcB", "b", modsOmitEmptyOnly⟩

/-- Fixture: binding `C(required)`. -/
def wbC : Binding := ⟨"srcC", "c", modsRequiredOnly⟩

/-- Fixture: binding with only `omitnil`. -/
def wbN : Binding := ⟨"srcN", "n", modsOmitNilOnly⟩

/-- Fixture handler: `srcA` not found, `srcB` found with value `bval`,
everything else found with value `cval`. -/
def wHandlerABC : Handler := fun b =>
  if b.name = "srcA" then ⟨none, false, none⟩
  else if b.name = "srcB" then ⟨some "bval", true, none⟩
  else ⟨some "cval", true, none⟩

/-- Fixture handler: only `srcB` is found. -/
def wHandlerBOnly : Handler := fun b =>
  if b.name = "srcB" then ⟨some "bval", true, none⟩
  else ⟨none, false, none⟩

/-- Fixture handler: nothing is ever found. -/
def wHandlerNone : Handler := fun _ => ⟨none, false, none⟩

/-- Fixture coercion: stores the string unchanged and never fails
(`setFieldValue` on a plain string field). -/
def setFId : SetField := fun s => Except.ok s

/-- Fixture step: writes field 0 from binding `B`. -/
def wStepOk : PStep := PStep.mk 0 "F0" [wbB] "" false false none

/-- Fixture step: field 1 requires binding `C`. -/
def wStepFail : PStep := PStep.mk 1 "F1" [wbC] "" false false none

/-- Fixture destination with two settable scalar fields at zero. -/
def wDest2 : Dest := [(true, DVal.leaf none), (true, DVal.leaf none)]

/-! ## Helper lemmas -/

/-- If the bindings before `b` all report clean not-found results and are
not required, and `b` is found with a non-nil value that coerces, the
binding loop returns `b`'s coerced value, no error, and has invoked
exactly the earlier bindings and `b`. -/
theorem firstSuccessAux (handler : Handler) (setF : SetField)
    (dflt : String) (b : Binding) (post : List Binding) (v s : String)
    (hbe : (handler b).error = none) (hbf : (handler b).found = true)
    (hbv : (handler b).value = some v) (hsf : setF v = Except.ok s)
    (pre : List Binding) :
    ∀ (aOE aOErr aON : Bool) (errs : Option GoErr) (inv : List Binding),
      (∀ a ∈ pre, (handler a).error = none ∧ (handler a).found = false ∧
        a.modifiers.required = false) →
      doStepRegularAux handler setF dflt (pre ++ b :: post) aOE aOErr aON
        errs inv = ⟨some s, none, inv ++ pre ++ [b]⟩ := by
  induction pre with
  | nil =>
    intro aOE aOErr aON errs inv _
    simp [doStepRegularAux, hbe, hbf, hbv, hsf]
  | cons a pre ih =>
    intro aOE aOErr aON errs inv hpre
    obtain ⟨hae, haf, har⟩ := hpre a (by simp)
    have hrest : ∀ x ∈ pre, (handler x).error = none ∧
        (handler x).found = false ∧ x.modifiers.required = false := by
      intro x hx; exact hpre x (by simp [hx])
    simp only [List.cons_append, doStepRegularAux, hae, haf, har]
    simp only [Bool.false_eq_true, false_and, if_false, ne_eq, ite_false,
      List.append_eq]
    rw [ih _ _ _ _ _ hrest]
    simp

/-- After a run of clean not-found, not-required bindings, the loop
terminates in the exhausted state: the `allOmit*` accumulators end up as
the conjunctions over the bindings' flags, no error accumulates beyond
what was already there, and every binding has been invoked. -/
theorem exhaustAux (handler : Handler) (setF : SetField) (dflt : String)
    (bindings : List Binding) :
    ∀ (aOE aOErr aON : Bool) (errs : Option GoErr) (inv : List Binding),
      (∀ a ∈ bindings, (handler a).error = none ∧
        (handler a).found = false ∧ a.modifiers.required = false) →
      doStepRegularAux handler setF dflt bindings aOE aOErr aON errs inv =
        (if (aOE && bindings.all (fun x => x.modifiers.omitEmpty)) ||
            (aOErr && bindings.all (fun x => x.modifiers.omitError)) ||
            (aON && bindings.all (fun x => x.modifiers.omitNil)) then
          if dflt ≠ "" then
            match setF dflt with
            | Except.ok s => ⟨some s, none, inv ++ bindings⟩
            | Except.error e => ⟨none, some e, inv ++ bindings⟩
          else ⟨none, some (GoErr.allFailedNoDefault errs), inv ++ bindings⟩
        else ⟨none, errs, inv ++ bindings⟩) := by
  induction bindings with
  | nil =>
    intro aOE aOErr aON errs inv _
    simp [doStepRegularAux]
  | cons a rest ih =>
    intro aOE aOErr aON errs inv hall
    obtain ⟨hae, haf, har⟩ := hall a (by simp)
    have hrest : ∀ x ∈ rest, (handler x).error = none ∧
        (handler x).found = false ∧ x.modifiers.required = false := by
      intro x hx; exact hall x (by simp [hx])
    simp only [doStepRegularAux, hae, haf, har]
    simp only [Bool.false_eq_true, false_and, if_false, ne_eq, ite_false,
      List.append_eq]
    rw [ih _ _ _ _ _ hrest]
    simp [Bool.and_assoc, List.append_assoc]

/-! ## Claim theorems -/

/-- C5. Grammar nesting worked example, exactly as in the spec: unwrapping
the triple-nested tag one quoted scope per level; each of the three
sub-value extractions succeeds with the expected remainder. -/
theorem c5_nesting_worked_example :
    SubTag (String.mk (['a', ':', quoteChar, 'b', ':', quoteChar, 'c',
      ':', quoteChar, 'd'] ++ [quoteChar, quoteChar, quoteChar])) "a" =
      SubTagOutcome.ok (String.mk (['b', ':', quoteChar, 'c', ':',
        quoteChar, 'd'] ++ [quoteChar, quoteChar])) ∧
    SubTag (String.mk (['b', ':', quoteChar, 'c', ':', quoteChar, 'd'] ++
      [quoteChar, quoteChar])) "b" =
      SubTagOutcome.ok (String.mk (['c', ':', quoteChar, 'd'] ++
        [quoteChar])) ∧
    SubTag (String.mk (['c', ':', quoteChar, 'd'] ++ [quoteChar])) "c" =
      SubTagOutcome.ok "d" := by
  refine ⟨by decide, by decide, by decide⟩

/-- C1. Fallback priority with first-success-wins: within a step the
bindings are tried in declared order; bindings before `b` that report a
clean not-found (and are not required) are passed over, and the first
binding `b` found with a non-nil value has its value coerced and written,
the step succeeds, and no binding after `b` is ever handed to the
extraction function (the invocation trace is exactly `pre ++ [b]`). -/
theorem c1_fallback_first_success_wins (handler : Handler)
    (setF : SetField) (pre : List Binding) (b : Binding)
    (post : List Binding) (dflt : String) (v s : String)
    (hpre : ∀ a ∈ pre, (handler a).error = none ∧
      (handler a).found = false ∧ a.modifiers.required = false)
    (hbe : (handler b).error = none) (hbf : (handler b).found = true)
    (hbv : (handler b).value = some v) (hsf : setF v = Except.ok s) :
    doStepRegular handler setF (pre ++ b :: post) dflt =
      ⟨some s, none, pre ++ [b]⟩ := by
  have h := firstSuccessAux handler setF dflt b post v s hbe hbf hbv hsf
    pre true true true none [] hpre
  simpa [doStepRegular] using h

/-- C1 witness: the spec's scenario `[A(omitempty), B(omitempty),
C(required)]` where `A` is not found and `B` is found with value `bval`:
the step writes `bval`, succeeds, and invokes only `A` and `B`. -/
theorem c1_witness :
    doStepRegular wHandlerABC setFId [wbA, wbB, wbC] "" =
      ⟨some "bval", none, [wbA, wbB]⟩ := by
  have h := c1_fallback_first_success_wins wHandlerABC setFId [wbA] wbB
    [wbC] "" "bval" "bval" (by decide) (by decide) (by decide) (by decide)
    (by rfl)
  simpa using h

/-- C2 counterexample: a single `omitempty` binding, nothing found, no
default. The claim says the step succeeds with the field at its zero
value; the code instead returns the accumulated
`ErrAllBindingsFailedNoDefault` error (the field does stay at zero). -/
theorem c2_counterexample :
    doStepRegular wHandlerNone setFId [wbA] "" =
      ⟨none, some GoErr.allFailedNoDefaultNil, [wbA]⟩ ∧
    (doStepRegular wHandlerNone setFId [wbA] "").err ≠ none := by
  refine ⟨by decide, by decide⟩

/-- C2 amended. All bindings omittable, none found, no default: the field
is left untouched, but the step only succeeds silently when the bindings
do NOT all share one common Omit kind; when they all carry the same Omit
flag (all omitempty, or all omiterror, or all omitnil) the step returns
the `ErrAllBindingsFailedNoDefault` error instead of succeeding. -/
theorem c2_all_omittable_no_default (handler : Handler) (setF : SetField)
    (bindings : List Binding)
    (hnf : ∀ a ∈ bindings, (handler a).error = none ∧
      (handler a).found = false ∧ a.modifiers.required = false) :
    ((bindings.all (fun x => x.modifiers.omitEmpty) = true ∨
      bindings.all (fun x => x.modifiers.omitError) = true ∨
      bindings.all (fun x => x.modifiers.omitNil) = true) →
      doStepRegular handler setF bindings "" =
        ⟨none, some GoErr.allFailedNoDefaultNil, bindings⟩) ∧
    ((bindings.all (fun x => x.modifiers.omitEmpty) = false ∧
      bindings.all (fun x => x.modifiers.omitError) = false ∧
      bindings.all (fun x => x.modifiers.omitNil) = false) →
      doStepRegular handler setF bindings "" = ⟨none, none, bindings⟩) := by
  have h := exhaustAux handler setF "" bindings true true true none [] hnf
  constructor
  · intro hcommon
    rcases hcommon with hc | hc | hc <;>
      simp [doStepRegular, h, hc, GoErr.allFailedNoDefault]
  · intro ⟨h1, h2, h3⟩
    simp [doStepRegular, h, h1, h2, h3]

/-- C2 witness: one `omitnil`-only binding, not found, no default — the
step errors (common-kind half of the amended claim). -/
theorem c2_witness :
    doStepRegular wHandlerNone setFId [wbN] "" =
      ⟨none, some GoErr.allFailedNoDefaultNil, [wbN]⟩ :=
  (c2_all_omittable_no_default wHandlerNone setFId [wbN] (by decide)).1
    (by decide)

/-- C3 counterexample: two bindings that each carry an Omit flag but of
different kinds (one `omitempty`, one `omitnil`), nothing found, default
`"d"` configured. The claim says the default is coerced and written; the
code leaves the field untouched (and returns no error), because the
default is only applied when ALL bindings share one common Omit kind. -/
theorem c3_counterexample :
    doStepRegular wHandlerNone setFId [wbA, wbN] "d" =
      ⟨none, none, [wbA, wbN]⟩ ∧
    (doStepRegular wHandlerNone setFId [wbA, wbN] "d").written ≠
      some "d" := by
  refine ⟨by decide, by decide⟩

/-- C3 amended. The default is coerced and written (and the step
succeeds) when the bindings are exhausted without success, a default is
configured, and every binding carries the SAME Omit kind (all omitempty,
or all omiterror, or all omitnil) — not merely "each binding carries at
least one Omit flag". -/
theorem c3_default_applied_common_omit_kind (handler : Handler)
    (setF : SetField) (bindings : List Binding) (dflt s : String)
    (hnf : ∀ a ∈ bindings, (handler a).error = none ∧
      (handler a).found = false ∧ a.modifiers.required = false)
    (hcommon : bindings.all (fun x => x.modifiers.omitEmpty) = true ∨
      bindings.all (fun x => x.modifiers.omitError) = true ∨
      bindings.all (fun x => x.modifiers.omitNil) = true)
    (hd : dflt ≠ "") (hsf : setF dflt = Except.ok s) :
    doStepRegular handler setF bindings dflt = ⟨some s, none, bindings⟩ := by
  have h := exhaustAux handler setF dflt bindings true true true none [] hnf
  rcases hcommon with hc | hc | hc <;>
    simp [doStepRegular, h, hc, hd, hsf]

/-- C3 witness: two `omitempty` bindings, nothing found, default `"5"`:
the default is written and the step succeeds. -/
theorem c3_witness :
    doStepRegular wHandlerNone setFId [wbA, wbB] "5" =
      ⟨some "5", none, [wbA, wbB]⟩ :=
  c3_default_applied_common_omit_kind wHandlerNone setFId [wbA, wbB] "5"
    "5" (by decide) (Or.inl (by decide)) (by decide) (by rfl)

/-- If the modifier loop returns ok, the resulting omit flag is the old
one or-ed with "some built-in omit token occurs in the remaining
modifiers". -/
theorem toBindingLoopOmitSeen (cm : List String) (mods : List String) :
    ∀ (acc : BindingModifiers) (os : Bool) (mods2 : BindingModifiers)
      (os2 : Bool),
      toBindingLoop cm mods acc os = GoResult.ok (mods2, os2) →
      os2 = (os || mods.any isBuiltinOmit) := by
  induction mods with
  | nil =>
    intro acc os mods2 os2 h
    simp [toBindingLoop] at h
    simp [h.2]
  | cons m rest ih =>
    intro acc os mods2 os2 h
    by_cases h1 : m = "omitempty"
    · rw [toBindingLoop, if_pos h1] at h
      have := ih _ _ _ _ h
      simp [this, isBuiltinOmit, h1]
    · by_cases h2 : m = "omiterror"
      · rw [toBindingLoop, if_neg h1, if_pos h2] at h
        have := ih _ _ _ _ h
        simp [this, isBuiltinOmit, h2]
      · by_cases h3 : m = "omitnil"
        · rw [toBindingLoop, if_neg h1, if_neg h2, if_pos h3] at h
          have := ih _ _ _ _ h
          simp [this, isBuiltinOmit, h3]
        · rw [toBindingLoop, if_neg h1, if_neg h2, if_neg h3] at h
          by_cases h4 : cm.contains m = false
          · rw [if_pos h4] at h; cases h
          · rw [if_neg h4] at h
            rcases hc : acc.custom with _ | mp
            · simp only [hc] at h; cases h
            · simp only [hc] at h
              have := ih _ _ _ _ h
              simp [this, isBuiltinOmit, h1, h2, h3]

/-- C4. Required is the negation of omission: whenever a binding tag
compiles into a `Binding`, the `Required` flag is true exactly when none
of the built-in omit tokens (`omitempty`, `omiterror`, `omitnil`) occurs
among the tag's modifier tokens. -/
theorem c4_required_iff_no_omit (t : BindingTag) (cm : List String)
    (b : Binding) (h : t.toBinding cm = GoResult.ok b) :
    b.modifiers.required = true ↔
      ∀ m ∈ t.modifiers, isBuiltinOmit m = false := by
  rw [BindingTag.toBinding] at h
  rcases hl : toBindingLoop cm t.modifiers BindingModifiers.zero false with
    msg | e | p
  · rw [hl] at h; cases h
  · rw [hl] at h; cases h
  · rcases p with ⟨mods2, os2⟩
    rw [hl] at h
    have hos := toBindingLoopOmitSeen cm t.modifiers _ _ _ _ hl
    cases h
    simp only [Bool.false_or] at hos
    simp [hos, List.any_eq_false]

/-- C4 witness: the tag `json:"id,omitempty"` compiles with
`Required = false`, matching "an omit token occurs". -/
theorem c4_witness :
    ((Binding.mk "json" "id"
        ⟨false, true, false, false, none⟩).modifiers.required = true ↔
      ∀ m ∈ ["omitempty"], isBuiltinOmit m = false) :=
  c4_required_iff_no_omit ⟨"json", "id", ["omitempty"]⟩ [] _ (by rfl)

/-- If the accumulator's custom map is still nil and the modifier tokens
reach an allow-listed custom token after only builtin-or-allowed ones,
the loop panics on the nil-map write. -/
theorem toBindingLoopPanics (cm : List String) (pre : List String) :
    ∀ (m : String) (post : List String) (acc : BindingModifiers)
      (os : Bool),
      acc.custom = none →
      (∀ x ∈ pre, isBuiltinOmit x = true ∨ cm.contains x = true) →
      isBuiltinOmit m = false → cm.contains m = true →
      toBindingLoop cm (pre ++ m :: post) acc os =
        GoResult.panicked "assignment to entry in nil map" := by
  induction pre with
  | nil =>
    intro m post acc os hcust _ hm hcm
    simp only [isBuiltinOmit, Bool.or_eq_false_iff,
      decide_eq_false_iff_not] at hm
    obtain ⟨⟨hm1, hm2⟩, hm3⟩ := hm
    rw [List.nil_append, toBindingLoop, if_neg hm1, if_neg hm2,
      if_neg hm3, if_neg (by rw [hcm]; simp), hcust]
  | cons x pre ih =>
    intro m post acc os hcust hpre hm hcm
    have htail : ∀ y ∈ pre, isBuiltinOmit y = true ∨
        cm.contains y = true := fun y hy => hpre y (by simp [hy])
    by_cases hx1 : x = "omitempty"
    · rw [List.cons_append, toBindingLoop, if_pos hx1]
      exact ih m post _ _ hcust htail hm hcm
    · by_cases hx2 : x = "omiterror"
      · rw [List.cons_append, toBindingLoop, if_neg hx1, if_pos hx2]
        exact ih m post _ _ hcust htail hm hcm
      · by_cases hx3 : x = "omitnil"
        · rw [List.cons_append, toBindingLoop, if_neg hx1, if_neg hx2,
            if_pos hx3]
          exact ih m post _ _ hcust htail hm hcm
        · have hcx : cm.contains x = true := by
            rcases hpre x (by simp) with hx | hx
            · exfalso
              revert hx
              simp [isBuiltinOmit, hx1, hx2, hx3]
            · exact hx
          rw [List.cons_append, toBindingLoop, if_neg hx1, if_neg hx2,
            if_neg hx3, if_neg (by rw [hcx]; simp), hcust]

/-- If the loop starts with a nil custom map and returns ok, the custom
map is still nil (no `Binding` with a custom flag set is ever built). -/
theorem toBindingLoopCustomNil (cm : List String) (mods : List String) :
    ∀ (acc : BindingModifiers) (os : Bool) (mods2 : BindingModifiers)
      (os2 : Bool),
      acc.custom = none →
      toBindingLoop cm mods acc os = GoResult.ok (mods2, os2) →
      mods2.custom = none := by
  induction mods with
  | nil =>
    intro acc os mods2 os2 hcust h
    simp [toBindingLoop] at h
    rw [← h.1]
    exact hcust
  | cons m rest ih =>
    intro acc os mods2 os2 hcust h
    by_cases h1 : m = "omitempty"
    · rw [toBindingLoop, if_pos h1] at h
      refine ih _ _ _ _ ?_ h
      exact hcust
    · by_cases h2 : m = "omiterror"
      · rw [toBindingLoop, if_neg h1, if_pos h2] at h
        refine ih _ _ _ _ ?_ h
        exact hcust
      · by_cases h3 : m = "omitnil"
        · rw [toBindingLoop, if_neg h1, if_neg h2, if_pos h3] at h
          refine ih _ _ _ _ ?_ h
          exact hcust
        · rw [toBindingLoop, if_neg h1, if_neg h2, if_neg h3] at h
          by_cases h4 : cm.contains m = false
          · rw [if_pos h4] at h; cases h
          · rw [if_neg h4] at h
            rcases hc : acc.custom with _ | mp
            · simp only [hc] at h; cases h
            · cases hcust.symm.trans hc

/-- C9 counterexample: the binding tag `json:"id,zzz,mycustom"` with
custom allow-list `["mycustom"]` contains an allow-listed custom token
(`mycustom`), yet converting it does not panic: the earlier disallowed
token `zzz` makes `toBinding` return `ErrUnallowedBindingModifier`
first, so the claim's "always panics" quantification fails. -/
theorem c9_counterexample :
    BindingTag.toBinding ⟨"json", "id", ["zzz", "mycustom"]⟩ ["mycustom"] =
      GoResult.errored (GoErr.unallowedBindingModifier "zzz") := by
  decide

/-- C9 amended. Custom modifiers can never be compiled successfully:
(1) if the modifier tokens reach an allow-listed non-builtin token with
only builtin or allow-listed tokens before it, `toBinding` panics writing
to the nil `Custom` map of the zero-initialized modifiers struct; and
(2) in every case, a successfully returned `Binding` has a nil `Custom`
map, so no custom flag is ever set. -/
theorem c9_custom_modifier_never_compiles (t : BindingTag)
    (cm : List String) :
    (∀ (pre : List String) (m : String) (post : List String),
      t.modifiers = pre ++ m :: post →
      (∀ x ∈ pre, isBuiltinOmit x = true ∨ cm.contains x = true) →
      isBuiltinOmit m = false → cm.contains m = true →
      t.toBinding cm = GoResult.panicked "assignment to entry in nil map") ∧
    (∀ b, t.toBinding cm = GoResult.ok b →
      b.modifiers.custom = none) := by
  constructor
  · intro pre m post hmods hpre hm hcm
    rw [BindingTag.toBinding, hmods,
      toBindingLoopPanics cm pre m post _ _ rfl hpre hm hcm]
  · intro b h
    rw [BindingTag.toBinding] at h
    rcases hl : toBindingLoop cm t.modifiers BindingModifiers.zero false
      with msg | e | p
    · rw [hl] at h; cases h
    · rw [hl] at h; cases h
    · rcases p with ⟨mods2, os2⟩
      rw [hl] at h
      cases h
      have hres := toBindingLoopCustomNil cm t.modifiers _ _ _ _ rfl hl
      exact hres

/-- C9 witness: `json:"id,omitempty,mycustom"` with allow-list
`["mycustom"]` panics on the nil-map write. -/
theorem c9_witness :
    BindingTag.toBinding ⟨"json", "id", ["omitempty", "mycustom"]⟩
        ["mycustom"] =
      GoResult.panicked "assignment to entry in nil map" :=
  (c9_custom_modifier_never_compiles
      ⟨"json", "id", ["omitempty", "mycustom"]⟩ ["mycustom"]).1
    ["omitempty"] "mycustom" [] rfl (by decide) (by decide) (by decide)

/-- The quoted-value scan returns `unterminated` exactly when the
Normal/Escaped/nesting-counter automaton reaches the end of input with
the scope still open. -/
theorem scanQuotedUnterminatedIff (delim : Char) :
    ∀ (l : List Char) (escaped : Bool) (lvl : Nat) (acc : List Char),
      (scanQuoted delim l escaped lvl acc = SubTagOutcome.unterminated ↔
        scopeStillOpen delim l escaped lvl = true)
  | [], e, v, acc => by simp [scanQuoted, scopeStillOpen]
  | c :: rest, e, v, acc => by
    rw [scanQuoted.eq_def, scopeStillOpen.eq_def]
    dsimp only
    by_cases h1 : c = backslashChar ∧ e = false
    · rw [if_pos h1, if_pos h1]
      exact scanQuotedUnterminatedIff delim rest true v (acc ++ [c])
    · rw [if_neg h1, if_neg h1]
      by_cases h2 : e = false ∧ c = ':'
      · rw [if_pos h2, if_pos h2]
        rcases rest with _ | ⟨d, rest2⟩
        · simp
        · by_cases h3 : d = delim
          · simp only [if_pos h3]
            exact scanQuotedUnterminatedIff delim rest2 false (v + 1)
              (acc ++ [c, d])
          · simp only [if_neg h3]
            exact scanQuotedUnterminatedIff delim (d :: rest2) false v
              (acc ++ [c])
      · rw [if_neg h2, if_neg h2]
        by_cases h4 : e = false ∧ c = delim
        · rw [if_pos h4, if_pos h4]
          by_cases h5 : v = 0
          · simp [h5]
          · simp only [if_neg h5]
            exact scanQuotedUnterminatedIff delim rest false (v - 1)
              (acc ++ [c])
        · rw [if_neg h4, if_neg h4]
          exact scanQuotedUnterminatedIff delim rest false v (acc ++ [c])

/-- The quoted-value scan never reports `notFound`. -/
theorem scanQuotedNeNotFound (delim : Char) :
    ∀ (l : List Char) (escaped : Bool) (lvl : Nat) (acc : List Char),
      scanQuoted delim l escaped lvl acc ≠ SubTagOutcome.notFound
  | [], e, v, acc => by simp [scanQuoted]
  | c :: rest, e, v, acc => by
    rw [scanQuoted.eq_def]
    dsimp only
    by_cases h1 : c = backslashChar ∧ e = false
    · rw [if_pos h1]
      exact scanQuotedNeNotFound delim rest true v (acc ++ [c])
    · rw [if_neg h1]
      by_cases h2 : e = false ∧ c = ':'
      · rw [if_pos h2]
        rcases rest with _ | ⟨d, rest2⟩
        · simp
        · by_cases h3 : d = delim
          · simp only [if_pos h3]
            exact scanQuotedNeNotFound delim rest2 false (v + 1)
              (acc ++ [c, d])
          · simp only [if_neg h3]
            exact scanQuotedNeNotFound delim (d :: rest2) false v
              (acc ++ [c])
      · rw [if_neg h2]
        by_cases h4 : e = false ∧ c = delim
        · rw [if_pos h4]
          by_cases h5 : v = 0
          · simp [h5]
          · simp only [if_neg h5]
            exact scanQuotedNeNotFound delim rest false (v - 1)
              (acc ++ [c])
        · rw [if_neg h4]
          exact scanQuotedNeNotFound delim rest false v (acc ++ [c])

/-- C6. Failure modes are distinguished and NotFound is benign for
defaults: `SubTagByDelimeter` returns its Malformed outcome
(`unterminated`) exactly when the left-to-right scan reaches the end of
input inside a still-open quoted scope; it returns the distinct
`notFound` outcome exactly when the requested key does not occur in the
tag; and default-value decoding treats an absent `default` key as "no
default configured" (empty value, no error). -/
theorem c6_failure_modes :
    (∀ (tag key : String) (delim : Char),
      SubTagByDelimeter tag key delim = SubTagOutcome.unterminated ↔
        scanEndsInsideOpenScope tag key delim = true) ∧
    (∀ (tag key : String) (delim : Char),
      SubTagByDelimeter tag key delim = SubTagOutcome.notFound ↔
        substrIndex tag.data (key.data ++ [':']) = none) ∧
    (∀ field : GoField, tagLookup field.tags "default" = none →
      decodeDefaultTagV2 field = Except.ok ⟨""⟩) := by
  refine ⟨?_, ?_, ?_⟩
  · intro tag key delim
    rw [SubTagByDelimeter, scanEndsInsideOpenScope]
    rcases hidx : substrIndex tag.data (key.data ++ [':']) with _ | idx
    · simp
    · simp only []
      rcases hws : (tag.data.drop (idx + key.length + 1)).dropWhile
        isSpaceTab with _ | ⟨c, rest⟩
      · simp
      · by_cases hc : c = delim
        · simp only [if_pos hc, hc, decide_True, Bool.true_and]
          exact scanQuotedUnterminatedIff delim rest false 0 []
        · simp [hc]
  · intro tag key delim
    rw [SubTagByDelimeter]
    rcases hidx : substrIndex tag.data (key.data ++ [':']) with _ | idx
    · simp
    · simp only []
      rcases hws : (tag.data.drop (idx + key.length + 1)).dropWhile
        isSpaceTab with _ | ⟨c, rest⟩
      · simp
      · by_cases hc : c = delim
        · simp only [if_pos hc]
          simp [scanQuotedNeNotFound delim rest false 0 []]
        · simp [hc]
  · intro field h
    rw [decodeDefaultTagV2, h]

/-- C6 witness: a field whose tag has no `default` key decodes to the
empty default with no error. -/
theorem c6_witness :
    decodeDefaultTagV2 (GoField.mk "Name" true [("json", "x")]
      GoType.str) = Except.ok ⟨""⟩ :=
  c6_failure_modes.2.2 _ (by decide)

/-- Unfolding: executing no steps leaves the destination alone. -/
theorem executeStepsNil (handler : Handler) (setF : SetField) (d : Dest) :
    executeSteps handler setF [] d = ⟨d, none, []⟩ := by
  rw [executeSteps.eq_def]

/-- Unfolding: executing `st :: rest` runs `st`, stops (wrapping the
error with the field name) if it failed, and otherwise continues. -/
theorem executeStepsCons (handler : Handler) (setF : SetField)
    (st : PStep) (rest : List PStep) (d : Dest) :
    executeSteps handler setF (st :: rest) d =
      (match (doStepE handler setF st d).err with
      | some e0 =>
        ⟨(doStepE handler setF st d).dest,
          some (GoErr.fieldWrap st.fieldName e0),
          (doStepE handler setF st d).trace⟩
      | none =>
        ⟨(executeSteps handler setF rest
            (doStepE handler setF st d).dest).dest,
          (executeSteps handler setF rest
            (doStepE handler setF st d).dest).err,
          (doStepE handler setF st d).trace ++
            (executeSteps handler setF rest
              (doStepE handler setF st d).dest).trace⟩) := by
  rw [executeSteps.eq_def]

/-- C7. Fail-fast with no rollback: if a chain run fails, there is a
first failing step `st` (at position `k`); the steps before it ran
without error, the returned error is `st`'s error wrapped with `st`'s
field name, and the whole run equals "run the first `k` steps, then the
failing step": no later step contributes an extraction (trace) or a field
write (destination), and the destination produced by the completed prefix
is kept as-is, never zeroed or reverted. -/
theorem c7_fail_fast (handler : Handler) (setF : SetField) :
    ∀ (steps : List PStep) (dest : Dest) (e : GoErr),
      (executeSteps handler setF steps dest).err = some e →
      ∃ (k : Nat) (st : PStep) (inner : GoErr),
        steps.get? k = some st ∧
        (executeSteps handler setF (steps.take k) dest).err = none ∧
        e = GoErr.fieldWrap st.fieldName inner ∧
        (doStepE handler setF st
          (executeSteps handler setF (steps.take k) dest).dest).err =
          some inner ∧
        executeSteps handler setF steps dest =
          ⟨(doStepE handler setF st
              (executeSteps handler setF (steps.take k) dest).dest).dest,
            some (GoErr.fieldWrap st.fieldName inner),
            (executeSteps handler setF (steps.take k) dest).trace ++
              (doStepE handler setF st
                (executeSteps handler setF
                  (steps.take k) dest).dest).trace⟩ := by
  intro steps
  induction steps with
  | nil =>
    intro dest e h
    rw [executeStepsNil] at h
    cases h
  | cons st rest ih =>
    intro dest e h
    rcases hre : (doStepE handler setF st dest).err with _ | e0
    · -- the head step succeeded: recurse into the tail
      have hcons := executeStepsCons handler setF st rest dest
      rw [hre] at hcons
      rw [hcons] at h
      simp only at h
      obtain ⟨k, st2, inner, h1, h2, h3, h4, h5⟩ := ih
        (doStepE handler setF st dest).dest e h
      have hpre := executeStepsCons handler setF st (rest.take k) dest
      rw [hre] at hpre
      refine ⟨k + 1, st2, inner, by simpa using h1, ?_, h3, ?_, ?_⟩
      · rw [List.take_succ_cons, hpre]
        exact h2
      · rw [List.take_succ_cons, hpre]
        exact h4
      · rw [List.take_succ_cons, hpre, hcons, h5]
        simp
    · -- the head step failed: it is the first failure
      have hcons := executeStepsCons handler setF st rest dest
      rw [hre] at hcons
      rw [hcons] at h
      simp only at h
      cases h
      refine ⟨0, st, e0, rfl, ?_, rfl, ?_, ?_⟩
      · rw [List.take_zero, executeStepsNil]
      · rw [List.take_zero, executeStepsNil]
        exact hre
      · rw [List.take_zero, executeStepsNil, hcons]
        simp

/-- C7 witness: a two-step chain where step `F0` writes `bval` into field
0 and step `F1` then fails on its required binding: the run fails with
the wrapped error, and the fail-fast decomposition of `c7_fail_fast`
holds at this input (field 0 keeps its written value). -/
theorem c7_witness :
    (executeSteps wHandlerBOnly setFId [wStepOk, wStepFail] wDest2).err =
      some (GoErr.fieldWrap "F1" (GoErr.requiredNotFound "c" "srcC")) ∧
    (∃ (k : Nat) (st : PStep) (inner : GoErr),
      [wStepOk, wStepFail].get? k = some st ∧
      (executeSteps wHandlerBOnly setFId ([wStepOk, wStepFail].take k)
        wDest2).err = none ∧
      GoErr.fieldWrap "F1" (GoErr.requiredNotFound "c" "srcC") =
        GoErr.fieldWrap st.fieldName inner ∧
      (doStepE wHandlerBOnly setFId st
        (executeSteps wHandlerBOnly setFId
          ([wStepOk, wStepFail].take k) wDest2).dest).err = some inner ∧
      executeSteps wHandlerBOnly setFId [wStepOk, wStepFail] wDest2 =
        ⟨(doStepE wHandlerBOnly setFId st
            (executeSteps wHandlerBOnly setFId
              ([wStepOk, wStepFail].take k) wDest2).dest).dest,
          some (GoErr.fieldWrap st.fieldName inner),
          (executeSteps wHandlerBOnly setFId
            ([wStepOk, wStepFail].take k) wDest2).trace ++
            (doStepE wHandlerBOnly setFId st
              (executeSteps wHandlerBOnly setFId
                ([wStepOk, wStepFail].take k) wDest2).dest).trace⟩) := by
  have hb : executeSteps wHandlerBOnly setFId [wStepOk, wStepFail]
      wDest2 = ⟨[(true, DVal.leaf (some "bval")), (true, DVal.leaf none)],
        some (GoErr.fieldWrap "F1" (GoErr.requiredNotFound "c" "srcC")),
        [wbB, wbC]⟩ := by
    have h1 : doStepE wHandlerBOnly setFId wStepOk wDest2 =
        ⟨[(true, DVal.leaf (some "bval")), (true, DVal.leaf none)], none,
          [wbB]⟩ := by
      rw [doStepE.eq_def]; rfl
    have h2 : doStepE wHandlerBOnly setFId wStepFail
        [(true, DVal.leaf (some "bval")), (true, DVal.leaf none)] =
        ⟨[(true, DVal.leaf (some "bval")), (true, DVal.leaf none)],
          some (GoErr.requiredNotFound "c" "srcC"), [wbC]⟩ := by
      rw [doStepE.eq_def]; rfl
    rw [executeStepsCons, h1]
    dsimp only
    rw [executeStepsCons, h2]
    rfl
  constructor
  · rw [hb]
  · exact c7_fail_fast wHandlerBOnly setFId [wStepOk, wStepFail] wDest2
      (GoErr.fieldWrap "F1" (GoErr.requiredNotFound "c" "srcC"))
      (by rw [hb])

/-- If none of the allow-listed binding names occurs among the field's
tags, binding-tag decoding yields the empty list with no error. -/
theorem decodeBindingTagsLoopNone (field : GoField) (opts : ParseTagOpts) :
    ∀ names : List String,
      (∀ n ∈ names, tagLookup field.tags n = none) →
      decodeBindingTagsLoop field opts names = Except.ok [] := by
  intro names
  induction names with
  | nil => intro _; rw [decodeBindingTagsLoop]
  | cons n rest ih =>
    intro h
    rw [decodeBindingTagsLoop, h n (by simp)]
    exact ih (fun m hm => h m (by simp [hm]))

/-- A non-struct-kind field with none of the allow-listed binding tags
(and a well-formed default tag) produces `ErrNoStepBindings`. -/
theorem newParseStepNoBindings (opts : ParseTagOpts) (f : GoField)
    (i : Nat) (hk : f.typ.kindIsStruct = false)
    (hb : ∀ n ∈ opts.bindingOpts.allowedBindingNames,
      tagLookup f.tags n = none)
    (hd : exceptIsOk (decodeDefaultTagV2 f) = true) :
    newParseStep opts f i = GoResult.errored GoErr.noStepBindings := by
  obtain ⟨fn, fe, ft, fty⟩ := f
  rcases hdt : decodeDefaultTagV2 (GoField.mk fn fe ft fty) with e | dt
  · rw [hdt] at hd
    simp [exceptIsOk] at hd
  · rw [newParseStep]
    have hbt : decodeBindingTagsV2 (GoField.mk fn fe ft fty) opts =
        Except.ok [] :=
      decodeBindingTagsLoopNone _ opts _ hb
    rw [DecodeParseTagV2, hbt]
    dsimp only
    rw [hdt]
    dsimp only
    rw [if_neg (by
      simp only [GoField.typ] at hk
      simp [decodeRecursiveTagV2, GoField.typ, hk])]
    rfl

/-- If every field of the struct is skipped (unexported, or no allow-listed
binding tag on a non-struct field), chain compilation yields no steps. -/
theorem newChainStepsSkipped (opts : ParseTagOpts) :
    ∀ (fields : List GoField) (i : Nat),
      (∀ f ∈ fields, fieldIsSkipped opts f = true) →
      newChainSteps opts fields i = GoResult.ok [] := by
  intro fields
  induction fields with
  | nil => intro i _; rw [newChainSteps]
  | cons f rest ih =>
    intro i h
    have hf := h f (by simp)
    rw [newChainSteps]
    rcases hexp : f.exported with _ | _
    · rw [if_pos rfl]
      exact ih (i + 1) (fun g hg => h g (by simp [hg]))
    · rw [if_neg (by simp [hexp])]
      rw [fieldIsSkipped, hexp] at hf
      simp only [Bool.not_true, Bool.false_or, Bool.and_eq_true,
        Bool.not_eq_true', List.all_eq_true] at hf
      obtain ⟨⟨hk, hb⟩, hd⟩ := hf
      rw [newParseStepNoBindings opts f i hk
        (fun n hn => by simpa using hb n hn) hd]
      exact ih (i + 1) (fun g hg => h g (by simp [hg]))

/-- C10. Executing an empty chain is an error, not a no-op: when every
exported field of the destination type is skipped (no bindings, no
sub-chain), compilation succeeds with a chain of no steps, and `Execute`
on that chain returns the `ErrNilParseChain` error naming the type,
rather than succeeding and leaving the destination unchanged. -/
theorem c10_empty_chain_error (opts : ParseTagOpts) (typeName : String)
    (fields : List GoField)
    (h : ∀ f ∈ fields, fieldIsSkipped opts f = true) :
    ∃ c, newParseChain opts (GoType.strukt typeName fields) =
        GoResult.ok c ∧
      c.steps = [] ∧
      ∀ (handler : Handler) (setF : SetField) (dest : Dest),
        executeChain handler setF c dest =
          ⟨dest, some (GoErr.nilParseChain typeName), []⟩ := by
  have hsteps := newChainStepsSkipped opts fields 0 h
  refine ⟨PChain.mk typeName [], ?_, rfl, ?_⟩
  · rw [newParseChain.eq_def]
    dsimp only
    rw [hsteps]
  · intro handler setF dest
    rw [executeChain.eq_def]

/-- C10 witness: a struct whose one exported field has only an unrelated
tag (and whose other field is unexported) compiles to an empty chain, and
executing it errors with the type's name. -/
theorem c10_witness :
    (∀ f ∈ [GoField.mk "Name" true [("yaml", "x")] GoType.str,
        GoField.mk "hidden" false [] (GoType.prim "int")],
      fieldIsSkipped ⟨⟨["json"], []⟩, []⟩ f = true) ∧
    (∃ c, newParseChain ⟨⟨["json"], []⟩, []⟩
        (GoType.strukt "Empty"
          [GoField.mk "Name" true [("yaml", "x")] GoType.str,
            GoField.mk "hidden" false [] (GoType.prim "int")]) =
        GoResult.ok c ∧
      c.steps = [] ∧
      ∀ (handler : Handler) (setF : SetField) (dest : Dest),
        executeChain handler setF c dest =
          ⟨dest, some (GoErr.nilParseChain "Empty"), []⟩) :=
  ⟨by decide, c10_empty_chain_error ⟨⟨["json"], []⟩, []⟩ "Empty" _
    (by decide)⟩

/-- A successful cache lookup comes from a stored pair. -/
theorem cacheLookupMem :
    ∀ (entries : List (Nat × Nat)) (k id : Nat),
      cacheLookup entries k = some id → (k, id) ∈ entries := by
  intro entries
  induction entries with
  | nil => intro k id h; cases h
  | cons kv rest ih =>
    intro k id h
    rw [cacheLookup] at h
    by_cases hk : kv.fst = k
    · rw [if_pos hk] at h
      cases h
      subst hk
      exact List.mem_cons_self _ _
    · rw [if_neg hk] at h
      exact List.mem_cons_of_mem _ (ih k id h)

/-- With duplicate-free keys and entry ids, lookups at distinct keys give
distinct entry ids. -/
theorem cacheLookupDistinct :
    ∀ (entries : List (Nat × Nat)) (k k2 id id2 : Nat),
      (entries.map Prod.snd).Nodup → k ≠ k2 →
      cacheLookup entries k = some id →
      cacheLookup entries k2 = some id2 → id ≠ id2 := by
  intro entries
  induction entries with
  | nil => intro k k2 id id2 _ _ h; cases h
  | cons kv rest ih =>
    intro k k2 id id2 hnod hne h1 h2
    rw [cacheLookup] at h1 h2
    rw [List.map_cons] at hnod
    have hpair := List.nodup_cons.mp hnod
    have hhead : kv.snd ∉ rest.map Prod.snd := hpair.1
    have htail : (rest.map Prod.snd).Nodup := hpair.2
    by_cases hk : kv.fst = k
    · rw [if_pos hk] at h1
      cases h1
      rw [if_neg (by rw [hk]; exact hne)] at h2
      intro heq
      apply hhead
      rw [heq]
      exact List.mem_map_of_mem Prod.snd (cacheLookupMem rest k2 id2 h2)
    · rw [if_neg hk] at h1
      by_cases hk2 : kv.fst = k2
      · rw [if_pos hk2] at h2
        cases h2
        intro heq
        apply hhead
        rw [← heq]
        exact List.mem_map_of_mem Prod.snd (cacheLookupMem rest k id h1)
      · rw [if_neg hk2] at h2
        exact ih k k2 id id2 htail hne h1 h2

/-- A stored entry id is below the allocation counter. -/
theorem cacheLookupBound (c : BindingCacheM) (k id : Nat) (hwf : c.WF)
    (h : cacheLookup c.entries k = some id) : id < c.nextId :=
  hwf.1 (k, id) (cacheLookupMem c.entries k id h)

/-- Deleting a key removes it: the filtered list no longer resolves it. -/
theorem cacheLookupFilter :
    ∀ (entries : List (Nat × Nat)) (k : Nat),
      cacheLookup (entries.filter (fun kv => kv.fst ≠ k)) k = none := by
  intro entries
  induction entries with
  | nil => intro k; rfl
  | cons kv rest ih =>
    intro k
    by_cases hk : kv.fst = k
    · rw [List.filter_cons_of_neg (by simp [hk])]
      exact ih k
    · rw [List.filter_cons_of_pos (by simp [hk]), cacheLookup,
        if_neg hk]
      exact ih k

/-- C8. The source cache is identity-keyed and stable: a second
`GetOrCreate` with the same source identity returns the same entry handle
and does not change the cache; `GetOrCreate` for a distinct source
identity — identities, not contents, are the keys — returns a distinct
entry handle; and after `Delete`, `Get` reports the entry absent. -/
theorem c8_cache_identity_keyed (c : BindingCacheM) (k k2 : Nat)
    (hwf : c.WF) (hne : k ≠ k2) :
    ((c.getOrCreate k).2.getOrCreate k).1 = (c.getOrCreate k).1 ∧
    ((c.getOrCreate k).2.getOrCreate k).2 = (c.getOrCreate k).2 ∧
    ((c.getOrCreate k).2.getOrCreate k2).1 ≠ (c.getOrCreate k).1 ∧
    (c.delete k).get k = none := by
  refine ⟨?_, ?_, ?_, ?_⟩
  · rcases h1 : cacheLookup c.entries k with _ | id
    · simp [BindingCacheM.getOrCreate, h1, cacheLookup]
    · simp [BindingCacheM.getOrCreate, h1]
  · rcases h1 : cacheLookup c.entries k with _ | id
    · simp [BindingCacheM.getOrCreate, h1, cacheLookup]
    · simp [BindingCacheM.getOrCreate, h1]
  · rcases h1 : cacheLookup c.entries k with _ | id
    · -- first call allocates entry id c.nextId under key k
      simp only [BindingCacheM.getOrCreate, h1]
      rcases h2 : cacheLookup c.entries k2 with _ | id2
      · simp [cacheLookup, if_neg hne, h2]
      · have hlt := cacheLookupBound c k2 id2 hwf h2
        simp [cacheLookup, if_neg hne, h2]
        omega
    · -- first call returns the existing entry id
      simp only [BindingCacheM.getOrCreate, h1]
      rcases h2 : cacheLookup c.entries k2 with _ | id2
      · have hlt := cacheLookupBound c k id hwf h1
        simp [BindingCacheM.getOrCreate, h2]
        omega
      · have := cacheLookupDistinct c.entries k k2 id id2 hwf.2.2 hne h1
          h2
        simp [BindingCacheM.getOrCreate, h2]
        exact fun heq => this heq.symm
  · rw [BindingCacheM.get, BindingCacheM.delete]
    exact cacheLookupFilter c.entries k

/-- C8 witness: starting from a fresh cache with two distinct source
identities 1 and 2. -/
theorem c8_witness :
    ((newBindingCache.getOrCreate 1).2.getOrCreate 1).1 =
      (newBindingCache.getOrCreate 1).1 ∧
    ((newBindingCache.getOrCreate 1).2.getOrCreate 1).2 =
      (newBindingCache.getOrCreate 1).2 ∧
    ((newBindingCache.getOrCreate 1).2.getOrCreate 2).1 ≠
      (newBindingCache.getOrCreate 1).1 ∧
    (newBindingCache.delete 1).get 1 = none :=
  c8_cache_identity_keyed newBindingCache 1 2
    ⟨by decide, by decide, by decide⟩ (by decide)

end Pave
